import Mathlib

/-
Verification of the messaging core of the marketplace application.

The repository contains several overlapping implementations of the chat
service.  We embed the two that the specification's claims reference:

* `FS` — the Firestore variant (`chatService` with `normalizeUserId`,
  `safeId`, `getOrCreateChat`, `sendMessage`, `subscribeToChats`,
  `markMessagesAsRead`); conversations are documents in a `chats`
  collection, messages in a `messages` collection with a boolean `read`
  flag, and per-participant unread counters live in a string-keyed map
  whose keys are produced by `safeId`.

* `SB` — the Supabase variant (`src/lib/chatService.ts`); conversations
  are rows of a `chats` table keyed additionally by `product_id`,
  messages carry a `read_by` array, and there are no unread counters.

Store-assigned document/row ids are modelled as `Nat` (freshness via a
`nextId` counter); server timestamps as a `now : Nat` field of the store
state.  String-keyed JS objects / Firestore maps are modelled as
association lists with unique keys (`Util.alSet` is Firestore's
field-path set: replace the binding if present, create it otherwise).
-/

namespace Util

/-- Firestore / JS object field set: replace the binding of `k` if present,
append it otherwise.  (Maps built by the code below never hold a key twice.) -/
def alSet {α : Type} : List (String × α) → String → α → List (String × α)
  | [], k, v => [(k, v)]
  | kv :: rest, k, v => if kv.1 == k then (k, v) :: rest else kv :: alSet rest k v

/-- JS object field read `m[k]`. -/
def alGet {α : Type} (m : List (String × α)) (k : String) : Option α :=
  (m.find? (fun kv => kv.1 == k)).map (·.2)

/-- JS object literal with two computed keys: on a key collision the second
entry overwrites the first, leaving a single binding. -/
def mkObj2 {α : Type} (k1 : String) (v1 : α) (k2 : String) (v2 : α) : List (String × α) :=
  if k1 == k2 then [(k2, v2)] else [(k1, v1), (k2, v2)]

/-- JS `a || b` on strings (empty string is falsy). -/
def jsOr (a b : String) : String := if a = "" then b else a

/-- `s.includes(c)` for a single character (kernel-reducible form of the
character scan). -/
def containsChar (s : String) (c : Char) : Bool := s.data.contains c

/-- Character-wise map over a string (kernel-reducible form of
`String.map`). -/
def mapChars (f : Char → Char) (s : String) : String := String.mk (s.data.map f)

/-- First `n` characters of a string. -/
def takeStr (s : String) (n : Nat) : String := String.mk (s.data.take n)

/-- `toUpperCase()`. -/
def toUpperStr (s : String) : String := mapChars Char.toUpper s

/-- `toLowerCase()`. -/
def toLowerStr (s : String) : String := mapChars Char.toLower s

/-- JS `trim()`: strip whitespace from both ends. -/
def trimStr (s : String) : String :=
  String.mk (((s.data.dropWhile Char.isWhitespace).reverse.dropWhile Char.isWhitespace).reverse)

/-- Lexicographic comparison of character lists by code point, the order JS
`Array.prototype.sort` applies to strings. -/
def charListLe : List Char → List Char → Bool
  | [], _ => true
  | _ :: _, [] => false
  | a :: as, b :: bs =>
    if a.toNat < b.toNat then true
    else if b.toNat < a.toNat then false
    else charListLe as bs

/-- String comparison used by the JS sort. -/
def jsLe (a b : String) : Bool := charListLe a.data b.data

/-- Store update of every record matching `p` (at most one in normal use,
since record ids are unique). -/
def listUpdate {α : Type} (p : α → Bool) (f : α → α) (l : List α) : List α :=
  l.map fun x => if p x then f x else x

/-- Descending order on a numeric sort key, as used by the conversation-list
queries (`orderBy lastMessageTime desc` / `order last_message_at desc`). -/
def keyDesc {α : Type} (key : α → Nat) : α → α → Prop := fun a b => key b ≤ key a

instance {α : Type} (key : α → Nat) : DecidableRel (keyDesc key) :=
  fun a b => inferInstanceAs (Decidable (key b ≤ key a))

instance {α : Type} (key : α → Nat) : IsTotal α (keyDesc key) :=
  ⟨fun a b => Nat.le_total (key b) (key a)⟩

instance {α : Type} (key : α → Nat) : IsTrans α (keyDesc key) :=
  ⟨fun _ _ _ h1 h2 => Nat.le_trans h2 h1⟩

/-- Sort a result set by a numeric key, largest first. -/
def sortByKeyDesc {α : Type} (key : α → Nat) (l : List α) : List α :=
  List.insertionSort (keyDesc key) l

end Util

namespace FS

/-- A row of the external user directory (`users` collection consumed through
`getUserByEmail` / `getUserByUsername`). -/
structure UserRec where
  email : String
  username : String
  name : String
deriving DecidableEq

/-- The external user directory. -/
abbrev Directory := List UserRec

/-- `getUserByEmail` of the user service: directory lookup by primary key. -/
def getUserByEmail (d : Directory) (e : String) : Option UserRec :=
  d.find? (fun u => u.email == e)

/-- `getUserByUsername` of the user service: directory lookup by the
secondary (username / seller reference) key. -/
def getUserByUsername (d : Directory) (un : String) : Option UserRec :=
  d.find? (fun u => u.username == un)

/-- `safeId`: replace every `.` by `_` so the id can be used as a Firestore
map key (`id.replace(/\./g, '_')`). -/
def safeId (id : String) : String := Util.mapChars (fun c => if c = '.' then '_' else c) id

/-- `userId.split('@')[0]`: the characters before the first `@` (the whole
string when there is none). -/
def localPart (s : String) : String := String.mk (s.data.takeWhile (fun c => !(c == '@')))

/-- `normalizeUserId`: always use the email as canonical id if possible.
Returns the pair (canonical id, display name). -/
def normalizeUserId (d : Directory) (userId : String) : String × String :=
  if Util.containsChar userId '@' then
    (userId, Util.jsOr (((getUserByEmail d userId).map (·.name)).getD "") (localPart userId))
  else
    match getUserByUsername d userId with
    | some u => (u.email, u.name)
    | none => (userId, userId)

/-- A document of the `messages` collection.  Note the read state is a single
boolean `read` flag, initialised to `false` on insert. -/
structure Msg where
  id : Nat
  chatId : Nat
  senderId : String
  senderName : String
  text : String
  timestamp : Nat
  read : Bool
deriving DecidableEq

/-- A document of the `chats` collection. -/
structure Chat where
  id : Nat
  participants : List String
  participantNames : List (String × String)
  participantAvatars : List (String × String)
  productId : String
  productTitle : String
  productImage : String
  lastMessage : String
  lastMessageTime : Nat
  unreadCount : List (String × Nat)
  createdAt : Nat
deriving DecidableEq

/-- The backing store: both collections, the user directory, a fresh-id
counter for store-assigned document ids, and the server clock. -/
structure St where
  chats : List Chat
  messages : List Msg
  dir : Directory
  nextId : Nat
  now : Nat
deriving DecidableEq

/-- The reuse test of `getOrCreateChat`: the query
`where('participants', 'array-contains', current)` followed by the loop's
`chatData.participants.includes(other)` — a chat matches when it holds both
normalized ids, whatever its product fields. -/
def pairPred (a b : String) (c : Chat) : Bool :=
  c.participants.contains a && c.participants.contains b

/-- The read phase of `getOrCreateChat`: scan the `chats` collection for the
first document containing both participants. -/
def scanPair (chats : List Chat) (a b : String) : Option Chat :=
  chats.find? (pairPred a b)

/-- All conversations of the store holding both identities. -/
def pairChats (s : St) (a b : String) : List Chat :=
  s.chats.filter (pairPred a b)

/-- `name[0].toUpperCase()`. -/
def avatarOf (n : String) : String := Util.toUpperStr (Util.takeStr n 1)

/-- The fresh conversation document built by `getOrCreateChat` on the create
path (`newChatData`): zeroed counters and snapshotted names/avatars. -/
def newChatRec (s : St) (idA nameA idB nameB pid ptitle pimg : String) : Chat :=
  { id := s.nextId, participants := [idA, idB],
    participantNames := Util.mkObj2 (safeId idA) nameA (safeId idB) nameB,
    participantAvatars := Util.mkObj2 (safeId idA) (avatarOf nameA) (safeId idB) (avatarOf nameB),
    productId := pid, productTitle := ptitle, productImage := pimg,
    lastMessage := "", lastMessageTime := s.now,
    unreadCount := Util.mkObj2 (safeId idA) 0 (safeId idB) 0,
    createdAt := s.now }

/-- The write phase of `getOrCreateChat`: `addDoc` of the fresh conversation
document. -/
def createChat (s : St) (idA nameA idB nameB pid ptitle pimg : String) : Nat × St :=
  let c : Chat := newChatRec s idA nameA idB nameB pid ptitle pimg
  (s.nextId, { s with chats := s.chats ++ [c], nextId := s.nextId + 1 })

/-- `getOrCreateChat` of the Firestore variant: normalize both ids, reject a
self chat, fetch fresh display names, then query-then-insert (the scan and
the insert are two separate store round trips; the returned id is the id of
the reused or freshly created document). -/
def getOrCreateChat (s : St) (curId _curName othId _othName pid ptitle pimg : String) :
    Except String Nat × St :=
  let nc := normalizeUserId s.dir curId
  let no := normalizeUserId s.dir othId
  if nc.1 = no.1 then (Except.error "Cannot start chat with yourself", s)
  else
    let curN := Util.jsOr (((getUserByEmail s.dir nc.1).map (·.name)).getD "") nc.2
    let othN := Util.jsOr (((getUserByEmail s.dir no.1).map (·.name)).getD "") no.2
    match scanPair s.chats nc.1 no.1 with
    | some c => (Except.ok c.id, s)
    | none =>
      let pr := createChat s nc.1 curN no.1 othN pid ptitle pimg
      (Except.ok pr.1, pr.2)

/-- First half of `sendMessage`: normalize the sender and `addDoc` the
message (`read: false`, server timestamp).  This write completes before the
chat document is even looked up. -/
def sendMessageInsert (s : St) (chatId : Nat) (senderId _senderName text : String) : St :=
  let ns := normalizeUserId s.dir senderId
  let m : Msg := { id := s.nextId, chatId := chatId, senderId := ns.1, senderName := ns.2,
                   text := text, timestamp := s.now, read := false }
  { s with messages := s.messages ++ [m], nextId := s.nextId + 1 }

/-- `sendMessage` of the Firestore variant: insert the message, then read the
chat document; if it exists, update its last-message summary and bump the
unread counter of every participant other than the (normalized) sender by
one, in a second write; if it does not exist, only log — the function
returns normally either way and never validates the text. -/
def sendMessage (s : St) (chatId : Nat) (senderId senderName text : String) : St :=
  let ns := normalizeUserId s.dir senderId
  let s1 := sendMessageInsert s chatId senderId senderName text
  match s1.chats.find? (fun c => c.id == chatId) with
  | none => s1
  | some c =>
    let upd := c.participants.foldl
      (fun acc pid =>
        if pid == ns.1 then acc
        else acc ++ [(safeId pid, ((Util.alGet c.unreadCount (safeId pid)).getD 0) + 1)]) []
    let newCount := upd.foldl (fun mp kv => Util.alSet mp kv.1 kv.2) c.unreadCount
    let c' := { c with lastMessage := text, lastMessageTime := s.now, unreadCount := newCount }
    { s1 with chats := Util.listUpdate (fun ch => ch.id == chatId) (fun _ => c') s1.chats }

/-- The per-message update of `markMessagesAsRead`: the query selects
messages of the chat whose sender differs from the reader and whose `read`
flag is still false, and sets the flag. -/
def readMark (chatId : Nat) (nu : String) (m : Msg) : Msg :=
  if m.chatId == chatId && !(m.senderId == nu) && !m.read then { m with read := true } else m

/-- `markMessagesAsRead`: normalize the reader, zero their unread-counter
field on the chat document, then flip the `read` flag of every message of
the chat sent by someone else that is still unread.  (When the chat document
is missing the counter update throws and the catch block swallows it, so
nothing changes.) -/
def markMessagesAsRead (s : St) (chatId : Nat) (userId : String) : St :=
  let nu := (normalizeUserId s.dir userId).1
  match s.chats.find? (fun c => c.id == chatId) with
  | none => s
  | some c =>
    let c' := { c with unreadCount := Util.alSet c.unreadCount (safeId nu) 0 }
    { s with chats := Util.listUpdate (fun ch => ch.id == chatId) (fun _ => c') s.chats,
             messages := s.messages.map (readMark chatId nu) }

/-- The query backing `subscribeToChats`:
`where('participants','array-contains', userId)` ordered by
`lastMessageTime` descending. -/
def chatsQuery (s : St) (userId : String) : List Chat :=
  Util.sortByKeyDesc Chat.lastMessageTime (s.chats.filter (fun c => c.participants.contains userId))

/-- Snapshot deliveries of the chat-list subscription: one query result per
store state in the sequence of states the store passes through. -/
def deliveries (states : List St) (userId : String) : List (List Chat) :=
  states.map (fun st => chatsQuery st userId)

/-- The arguments of one `getOrCreateChat` call apart from the two
identities: the display names and the product/topic fields. -/
structure CallArgs where
  curName : String
  othName : String
  pid : String
  ptitle : String
  pimg : String
deriving DecidableEq

/-- Run a sequence of `getOrCreateChat` calls for the fixed identity pair
`(a, b)`, threading the store and collecting each call's result. -/
def runCalls (s : St) (a b : String) : List CallArgs → List (Except String Nat) × St
  | [] => ([], s)
  | x :: rest =>
    let r := getOrCreateChat s a x.curName b x.othName x.pid x.ptitle x.pimg
    let rest2 := runCalls r.2 a b rest
    (r.1 :: rest2.1, rest2.2)

end FS

namespace SB

/-- A row of the `chat_messages` table. -/
structure Msg where
  id : Nat
  chatId : Nat
  senderId : String
  receiverId : Option String
  text : String
  createdAt : Nat
  readBy : List String
deriving DecidableEq

/-- A row of the `chats` table.  There is no unread-counter column. -/
structure Chat where
  id : Nat
  users : List String
  productId : String
  productTitle : String
  lastMessage : String
  lastMessageAt : Nat
deriving DecidableEq

/-- The backing store of the Supabase variant. -/
structure St where
  chats : List Chat
  messages : List Msg
  nextId : Nat
  now : Nat
deriving DecidableEq

/-- `[buyerId, sellerId].sort()` (two-element lexicographic sort). -/
def sortPair (a b : String) : List String := if Util.jsLe a b then [a, b] else [b, a]

/-- The lookup filter of the Supabase `getOrCreateChat`:
`.contains("users", users).eq("product_id", productId)` — the row must hold
both users and carry exactly the requested product id. -/
def chatPred (users : List String) (productId : String) (c : Chat) : Bool :=
  users.all (fun u => c.users.contains u) && c.productId == productId

/-- `getOrCreateChat` of the Supabase variant: sort the pair and query for
an existing row for this pair and this product with `.maybeSingle()`.
`maybeSingle` yields the row only when exactly one row matches; with zero
matches it yields nothing, and with two or more matches it yields an error
whose data is null — the code only logs the error, so in both of those
cases it falls through and inserts a fresh row.  There is no
self-conversation check and the row id is assigned by the store.
`newChatRow` is the fresh row the insert writes. -/
def newChatRow (s : St) (users : List String) (productId productTitle : String) : Chat :=
  { id := s.nextId, users := users, productId := productId,
    productTitle := productTitle, lastMessage := "", lastMessageAt := s.now }

def getOrCreateChat (s : St) (buyerId sellerId productId productTitle : String) : Nat × St :=
  let users := sortPair buyerId sellerId
  match s.chats.filter (chatPred users productId) with
  | [c] => (c.id, s)
  | _ =>
    let c : Chat := newChatRow s users productId productTitle
    (s.nextId, { s with chats := s.chats ++ [c], nextId := s.nextId + 1 })

/-- `sendMessage` of the Supabase variant: fetch the chat row (returning
silently when it is missing), insert the message with `read_by` seeded to
the sender, then update the chat's last-message summary.  No unread counter
exists to update and blank text is not rejected. -/
def sendMessage (s : St) (chatId : Nat) (senderId text : String) : St :=
  match s.chats.find? (fun c => c.id == chatId) with
  | none => s
  | some chat =>
    let receiverId := chat.users.find? (fun u => !(u == senderId))
    let m : Msg := { id := s.nextId, chatId := chatId, senderId := senderId,
                     receiverId := receiverId, text := text, createdAt := s.now,
                     readBy := [senderId] }
    let s1 := { s with messages := s.messages ++ [m], nextId := s.nextId + 1 }
    let bump := fun c => { c with lastMessage := text, lastMessageAt := s.now }
    { s1 with chats := Util.listUpdate (fun c => c.id == chatId) bump s1.chats }

/-- `markAsRead` of the Supabase variant: fetch the message's `read_by`
array and append the reader only when absent. -/
def markAsRead (s : St) (messageId : Nat) (uid : String) : St :=
  match s.messages.find? (fun m => m.id == messageId) with
  | none => s
  | some m =>
    if m.readBy.contains uid then s
    else
      let addReader := fun m2 => { m2 with readBy := m2.readBy ++ [uid] }
      { s with messages := Util.listUpdate (fun m2 => m2.id == messageId) addReader s.messages }

/-- The fetch backing `listenToUserChats`: rows containing `uid`, ordered by
`last_message_at` descending; re-run on every change of the `chats` table. -/
def fetchChats (s : St) (uid : String) : List Chat :=
  Util.sortByKeyDesc Chat.lastMessageAt (s.chats.filter (fun c => c.users.contains uid))

/-- Snapshot deliveries of the chat-list subscription: one fetch per store
state the subscription observes. -/
def deliveries (states : List St) (uid : String) : List (List Chat) :=
  states.map (fun st => fetchChats st uid)

/-- The sending UI handler (`handleSend`): blank input (after trimming) is
dropped before `sendMessage` is ever called; otherwise the trimmed text is
sent. -/
def clientSend (s : St) (chatId : Nat) (uid input : String) : St :=
  if Util.trimStr input = "" then s else sendMessage s chatId uid (Util.trimStr input)

end SB

namespace PD

/-- The short fixed list of plausible domains tried by the seller-resolution
fallback (`possibleDomains` in `handleChatWithSeller`). -/
def possibleDomains : List String := ["@gmail.com", "@students.ku.edu", "@ku.edu"]

/-- Domain-guessing: combine the lower-cased handle with each domain of the
fixed list in order and accept the first directory hit. -/
def domainGuess (d : FS.Directory) (handle : String) : Option String :=
  possibleDomains.findSome?
    (fun dom => (FS.getUserByEmail d (Util.toLowerStr handle ++ dom)).map (·.email))

/-- The seller-resolution chain of `handleChatWithSeller` for a bare handle
(no `sellerEmail` / `sellerId` fields on the listing): an empty handle is
falsy and skips every step; a handle with email syntax is accepted as-is
with no directory round trip; otherwise the directory is queried by
username; otherwise domain-guessing runs; `none` is the
"Could not find seller information" failure surfaced to the user. -/
def resolveSeller (d : FS.Directory) (handle : String) : Option String :=
  if handle = "" then none
  else if Util.containsChar handle '@' then some handle
  else
    match FS.getUserByUsername d handle with
    | some u => some u.email
    | none => domainGuess d handle

end PD

namespace TY

/-- A typing broadcast event (`channel.send` payload `{uid, typing}` of
`setTyping`), stamped with the send time. -/
structure Ev where
  uid : String
  typing : Bool
  time : Nat
deriving DecidableEq

/-- The typing state observed at time `t` by participant `self`: the
listener (`listenToTyping` feeding `setRemoteIsTyping`) starts at `false`
and overwrites its state with the payload of every broadcast whose `uid`
differs from `self`.  No timer ever runs on the observing side. -/
def observedAt (self : String) (evs : List Ev) (t : Nat) : Bool :=
  (evs.filter (fun e => decide (e.time ≤ t))).foldl
    (fun st e => if e.uid == self then st else e.typing) false

/-- The broadcasts produced by one keystroke in `handleTyping`: an immediate
`setTyping(chat, uid, val.length > 0)` and — if the client stays alive and no
further keystroke cancels the timer — an explicit
`setTyping(chat, uid, false)` scheduled 1500 ms later. -/
def handleTypingEmits (uid val : String) (t : Nat) : List Ev :=
  [{ uid := uid, typing := decide (0 < val.length), time := t },
   { uid := uid, typing := false, time := t + 1500 }]

end TY

/-! Concrete stores used by witnesses and counterexamples. -/

/-- A directory with one user reachable by username and one by email. -/
def demoDir : FS.Directory :=
  [{ email := "bob@gmail.com", username := "seller_bob", name := "Bob" },
   { email := "ann@students.ku.edu", username := "seller_ann", name := "Ann" }]

/-- A Firestore conversation between `a@x.com` and `b@x.com`. -/
def demoChatFS : FS.Chat :=
  { id := 0, participants := ["a@x.com", "b@x.com"],
    participantNames := [(FS.safeId "a@x.com", "A"), (FS.safeId "b@x.com", "B")],
    participantAvatars := [(FS.safeId "a@x.com", "A"), (FS.safeId "b@x.com", "B")],
    productId := "p1", productTitle := "Lamp", productImage := "",
    lastMessage := "", lastMessageTime := 0,
    unreadCount := [(FS.safeId "a@x.com", 0), (FS.safeId "b@x.com", 0)],
    createdAt := 0 }

/-- A Firestore store holding `demoChatFS` and no messages. -/
def demoStFS : FS.St :=
  { chats := [demoChatFS], messages := [], dir := [], nextId := 1, now := 5 }

/-- A Firestore store holding `demoChatFS` and one unread message from
`b@x.com`. -/
def demoStFS2 : FS.St :=
  { chats := [demoChatFS],
    messages := [{ id := 7, chatId := 0, senderId := "b@x.com", senderName := "B",
                   text := "yo", timestamp := 1, read := false }],
    dir := [], nextId := 8, now := 5 }

/-- An empty Firestore store. -/
def emptyStFS : FS.St := { chats := [], messages := [], dir := [], nextId := 0, now := 0 }

/-- An empty Supabase store. -/
def emptyStSB : SB.St := { chats := [], messages := [], nextId := 0, now := 0 }

/-! Counterexamples: concrete runs on which the code contradicts the claims. -/

/-- C1 counterexample: the claim says any sequence of getOrCreateChat calls
for the same two identities yields one single conversation whatever
product/topic arguments are passed.  In the Supabase variant the reuse query
filters on `product_id`, so two sequential calls for the pair
(`a@x.com`, `b@x.com`) with products `p1` then `p2` leave two conversations
for the same unordered pair in the store. -/
theorem C1_counterexample :
    ((SB.getOrCreateChat (SB.getOrCreateChat emptyStSB "a@x.com" "b@x.com" "p1" "Lamp").2
        "a@x.com" "b@x.com" "p2" "Desk").2.chats.filter
      (fun c => c.users.contains "a@x.com" && c.users.contains "b@x.com")).length = 2 := by
  decide

/-- C2 counterexample: the claim says the conversation id is a deterministic
function of the sorted pair and creation is an atomic create-if-absent, so
two racing first-contact calls return the same id.  The Firestore
`getOrCreateChat` is a query (`scanPair`) followed by a separate `addDoc`
(`createChat`) with a store-assigned id: interleaving the two phases of two
racing first-contact calls (both scans read the empty store, then both
inserts run) yields two different ids and two conversations for the pair. -/
theorem C2_counterexample :
    FS.scanPair emptyStFS.chats "a@x.com" "b@x.com" = none ∧
    FS.scanPair emptyStFS.chats "b@x.com" "a@x.com" = none ∧
    (let w1 := FS.createChat emptyStFS "a@x.com" "A" "b@x.com" "B" "p1" "Lamp" ""
     let w2 := FS.createChat w1.2 "b@x.com" "B" "a@x.com" "A" "p1" "Lamp" ""
     w1.1 ≠ w2.1 ∧ (FS.pairChats w2.2 "a@x.com" "b@x.com").length = 2) := by
  decide

/-- C3 counterexample: the claim says getting or creating a conversation
whose two resolved identities are equal fails with a SelfConversation error
and creates nothing.  The Supabase variant has no self-check and no failure
path at all: called with the same identity twice on an empty store it
creates and returns a conversation whose two participants are equal. -/
theorem C3_counterexample :
    (SB.getOrCreateChat emptyStSB "a@x.com" "a@x.com" "p1" "Lamp").1 = 0 ∧
    (SB.getOrCreateChat emptyStSB "a@x.com" "a@x.com" "p1" "Lamp").2.chats.map SB.Chat.users =
      [["a@x.com", "a@x.com"]] := by
  decide

/-- C4 counterexample: the claim says sendMessage applies its three effects
as one logical unit with the message's read-set seeded to the sender.  In
the Firestore variant the message insert is a separate, earlier write than
the chat update: after the insert phase the store holds the new message
(with `read = false`, recording no reader at all) while the last-message
summary and the recipient's unread counter are still untouched; only the
second write produces the final state, which differs from the intermediate
one. -/
theorem C4_counterexample :
    (let mid := FS.sendMessageInsert demoStFS 0 "a@x.com" "A" "hi"
     let fin := FS.sendMessage demoStFS 0 "a@x.com" "A" "hi"
     mid.messages.map (fun m => (m.chatId, m.text, m.read)) = [(0, "hi", false)] ∧
     mid.chats.map FS.Chat.lastMessage = [""] ∧
     mid.chats.map (fun c => Util.alGet c.unreadCount (FS.safeId "b@x.com")) = [some 0] ∧
     fin.messages = mid.messages ∧
     fin.chats.map FS.Chat.lastMessage = ["hi"] ∧
     fin.chats.map (fun c => Util.alGet c.unreadCount (FS.safeId "b@x.com")) = [some 1] ∧
     fin ≠ mid) := by
  decide

/-- C5 counterexample: the claim says sendMessage fails with
ConversationNotFound on an unknown conversation id (inserting nothing) and
with EmptyMessage on blank text.  The Firestore variant, called with the
unknown id 99, still inserts the message and returns normally (it only logs
that the chat is missing), and called with blank text it inserts the blank
message. -/
theorem C5_counterexample :
    (let gone := FS.sendMessage demoStFS 99 "a@x.com" "A" "hi"
     let blank := FS.sendMessage demoStFS 0 "a@x.com" "A" "   "
     gone.messages.map FS.Msg.text = ["hi"] ∧ gone.chats = demoStFS.chats ∧
     blank.messages.map FS.Msg.text = ["   "]) := by
  decide

/-- C8 counterexample: the claim says the observed typing state reverts to
false within a 1-2 second window with no explicit false call, including when
the typing client crashes.  The receiving side keeps only the last broadcast
payload and runs no timer: after a single `typing = true` broadcast at time
0 and no further events (the crash scenario), the state observed by the
other participant is still true at time 100000 ms. -/
theorem C8_counterexample :
    TY.observedAt "b@x.com" [{ uid := "a@x.com", typing := true, time := 0 }] 100000 = true := by
  decide

/-- C10: safeId, which replaces every '.' with '_', identifies the distinct
canonical ids `a.b@x.com` and `a_b@x.com`; consequently the two-key map
literal used for per-participant unreadCount (and names/avatars) collapses
to a single shared entry for such a pair. -/
theorem C10_safeId_not_injective :
    FS.safeId "a.b@x.com" = FS.safeId "a_b@x.com" ∧ "a.b@x.com" ≠ "a_b@x.com" ∧
    (Util.mkObj2 (FS.safeId "a.b@x.com") 0 (FS.safeId "a_b@x.com") 0).length = 1 := by
  decide

/-! Auxiliary lemmas about the store primitives. -/

theorem findEqFilterHead {α : Type} (l : List α) (p : α → Bool) :
    l.find? p = (l.filter p).head? := by
  induction l with
  | nil => rfl
  | cons a t ih =>
    cases hp : p a with
    | true =>
      rw [List.find?_cons_of_pos _ (by simp [hp]), List.filter_cons_of_pos (by simp [hp])]
      rfl
    | false =>
      rw [List.find?_cons_of_neg _ (by simp [hp]), List.filter_cons_of_neg (by simp [hp])]
      exact ih

theorem findAppendNone {α : Type} (l₁ l₂ : List α) (p : α → Bool) (h : l₁.find? p = none) :
    (l₁ ++ l₂).find? p = l₂.find? p := by
  induction l₁ with
  | nil => rfl
  | cons a t ih =>
    cases hp : p a with
    | true => rw [List.find?_cons_of_pos _ (by simp [hp])] at h; cases h
    | false =>
      rw [List.find?_cons_of_neg _ (by simp [hp])] at h
      rw [List.cons_append, List.find?_cons_of_neg _ (by simp [hp])]
      exact ih h

theorem listMapId {α : Type} (l : List α) (f : α → α) (h : ∀ x ∈ l, f x = x) : l.map f = l := by
  induction l with
  | nil => rfl
  | cons a t ih => simp_all

theorem listMapCongr {α β : Type} (l : List α) (f g : α → β) (h : ∀ x ∈ l, f x = g x) :
    l.map f = l.map g := by
  induction l with
  | nil => rfl
  | cons a t ih => simp_all

theorem listUpdateFind {α : Type} (l : List α) (p : α → Bool) (f : α → α) (a : α)
    (h : l.find? p = some a) (hp : p (f a) = true) :
    (Util.listUpdate p f l).find? p = some (f a) := by
  induction l with
  | nil => simp [List.find?] at h
  | cons x t ih =>
    unfold Util.listUpdate at *
    cases hx : p x with
    | true =>
      rw [List.find?_cons_of_pos _ (by simp [hx])] at h
      injection h with h
      subst h
      have h1 : (fun y => if p y then f y else y) x = f x := by simp [hx]
      simp only [List.map_cons, h1]
      exact List.find?_cons_of_pos _ (by simp [hp])
    | false =>
      rw [List.find?_cons_of_neg _ (by simp [hx])] at h
      have h1 : (fun y => if p y then f y else y) x = x := by simp [hx]
      simp only [List.map_cons, h1]
      rw [List.find?_cons_of_neg _ (by simp [hx])]
      exact ih h

theorem memContains {α : Type} [BEq α] [LawfulBEq α] (l : List α) (x : α) (h : x ∈ l) :
    l.contains x = true := by
  simpa using h

theorem allContainsSelf (l : List String) : l.all (fun u => l.contains u) = true := by
  rw [List.all_eq_true]
  intro x hx
  exact memContains l x hx

theorem alGetAlSetSelf {α : Type} (m : List (String × α)) (k : String) (v : α) :
    Util.alGet (Util.alSet m k v) k = some v := by
  induction m with
  | nil => simp [Util.alSet, Util.alGet, List.find?_cons]
  | cons kv t ih =>
    unfold Util.alSet
    cases hk : kv.1 == k with
    | true => simp [Util.alGet, List.find?_cons]
    | false => simpa [Util.alGet, hk, List.find?_cons] using ih

theorem alGetAlSetOther {α : Type} (m : List (String × α)) (k k' : String) (v : α)
    (h : (k == k') = false) :
    Util.alGet (Util.alSet m k v) k' = Util.alGet m k' := by
  induction m with
  | nil => simp [Util.alSet, Util.alGet, List.find?_cons, h]
  | cons kv t ih =>
    unfold Util.alSet
    cases hk : kv.1 == k with
    | true =>
      have hkv : (kv.1 == k') = false := by
        have h1 : kv.1 = k := by simpa using hk
        simpa [h1] using h
      simp [Util.alGet, List.find?_cons, h, hkv]
    | false =>
      cases hk' : kv.1 == k' with
      | true => simp [Util.alGet, List.find?_cons, hk']
      | false => simpa [Util.alGet, List.find?_cons, hk'] using ih

theorem alSetAlSetSelf {α : Type} (m : List (String × α)) (k : String) (v w : α) :
    Util.alSet (Util.alSet m k v) k w = Util.alSet m k w := by
  induction m with
  | nil => simp [Util.alSet]
  | cons kv t ih =>
    cases hk : kv.1 == k with
    | true =>
      have h1 : kv.1 = k := by simpa using hk
      simp [Util.alSet, h1]
    | false =>
      have h1 : ¬ kv.1 = k := by simpa using hk
      simp [Util.alSet, h1, ih]

theorem stEqFS (a b : FS.St) (h1 : a.chats = b.chats) (h2 : a.messages = b.messages)
    (h3 : a.dir = b.dir) (h4 : a.nextId = b.nextId) (h5 : a.now = b.now) : a = b := by
  cases a; cases b; simp_all

theorem charListLeTotal : ∀ xs ys : List Char,
    Util.charListLe xs ys = true ∨ Util.charListLe ys xs = true
  | [], _ => Or.inl rfl
  | _ :: _, [] => Or.inr rfl
  | a :: as, b :: bs => by
    unfold Util.charListLe
    by_cases h1 : a.toNat < b.toNat
    · simp [h1]
    · by_cases h2 : b.toNat < a.toNat
      · simp [h1, h2]
      · simpa [h1, h2] using charListLeTotal as bs

theorem charListLeAntisymm : ∀ xs ys : List Char,
    Util.charListLe xs ys = true → Util.charListLe ys xs = true → xs = ys
  | [], [] => fun _ _ => rfl
  | [], _ :: _ => fun _ h2 => by simp [Util.charListLe] at h2
  | _ :: _, [] => fun h1 _ => by simp [Util.charListLe] at h1
  | a :: as, b :: bs => fun h1 h2 => by
    unfold Util.charListLe at h1 h2
    by_cases c1 : a.toNat < b.toNat
    · have c2 : ¬ b.toNat < a.toNat := by omega
      simp [c1, c2] at h2
    · by_cases c2 : b.toNat < a.toNat
      · simp [c1, c2] at h1
      · have hn : a.toNat = b.toNat := by omega
        have hab : a = b := by
          have := congrArg Char.ofNat hn
          simpa [Char.ofNat_toNat] using this
        subst hab
        simp [c1, c2] at h1 h2
        rw [charListLeAntisymm as bs h1 h2]

theorem sortPairComm (a b : String) : SB.sortPair b a = SB.sortPair a b := by
  unfold SB.sortPair Util.jsLe
  cases h1 : Util.charListLe a.data b.data with
  | true =>
    cases h2 : Util.charListLe b.data a.data with
    | true =>
      have hd : a.data = b.data := charListLeAntisymm a.data b.data h1 h2
      have hab : a = b := by cases a; cases b; exact congrArg String.mk hd
      subst hab
      simp
    | false => simp [h2]
  | false =>
    have h2 : Util.charListLe b.data a.data = true := by
      rcases charListLeTotal a.data b.data with h | h
      · rw [h] at h1; cases h1
      · exact h
    simp [h2]

theorem sbCreateNone (s : SB.St) (bId sId p t : String)
    (h : s.chats.filter (SB.chatPred (SB.sortPair bId sId) p) = []) :
    SB.getOrCreateChat s bId sId p t =
      (s.nextId, { s with chats := s.chats ++ [SB.newChatRow s (SB.sortPair bId sId) p t], nextId := s.nextId + 1 }) := by
  unfold SB.getOrCreateChat
  dsimp only
  rw [h]

theorem sbCreateOne (s : SB.St) (bId sId p t : String) (c : SB.Chat)
    (h : s.chats.filter (SB.chatPred (SB.sortPair bId sId) p) = [c]) :
    SB.getOrCreateChat s bId sId p t = (c.id, s) := by
  unfold SB.getOrCreateChat
  dsimp only
  rw [h]

theorem sbCreateMany (s : SB.St) (bId sId p t : String) (c c2 : SB.Chat) (rest : List SB.Chat)
    (h : s.chats.filter (SB.chatPred (SB.sortPair bId sId) p) = c :: c2 :: rest) :
    SB.getOrCreateChat s bId sId p t =
      (s.nextId, { s with chats := s.chats ++ [SB.newChatRow s (SB.sortPair bId sId) p t], nextId := s.nextId + 1 }) := by
  unfold SB.getOrCreateChat
  dsimp only
  rw [h]

/-- C2 amended: the conversation id is store-assigned and creation is a
separate query followed by an insert (not an atomic create-if-absent at a
pair-derived id), so racing first contacts can duplicate
(`C2_counterexample`).  What does hold sequentially: on a store where at
most one row matches the (sorted pair, product) query — the state a
race-free history maintains — a second call with the two identities in
either order and the same product returns exactly the conversation id the
first call created or found, and leaves the store unchanged.  Once the race
has produced two or more rows for the same (pair, product), `maybeSingle`
yields no usable row and every further call inserts yet another
conversation. -/
theorem C2_amended (s : SB.St) (a b p t t' : String)
    (hone : (s.chats.filter (SB.chatPred (SB.sortPair a b) p)).length ≤ 1) :
    ((SB.getOrCreateChat (SB.getOrCreateChat s a b p t).2 b a p t').1 =
       (SB.getOrCreateChat s a b p t).1 ∧
     (SB.getOrCreateChat (SB.getOrCreateChat s a b p t).2 b a p t').2 =
       (SB.getOrCreateChat s a b p t).2) ∧
    (∀ (s2 : SB.St) (a2 b2 p2 t2 : String),
       2 ≤ (s2.chats.filter (SB.chatPred (SB.sortPair a2 b2) p2)).length →
       (SB.getOrCreateChat s2 a2 b2 p2 t2).2.chats.length = s2.chats.length + 1) := by
  constructor
  · have hsp : SB.sortPair b a = SB.sortPair a b := sortPairComm a b
    cases hf : s.chats.filter (SB.chatPred (SB.sortPair a b) p) with
    | nil =>
      have hnew : SB.chatPred (SB.sortPair a b) p (SB.newChatRow s (SB.sortPair a b) p t) =
          true := by
        unfold SB.chatPred SB.newChatRow
        simp [allContainsSelf]
      rw [sbCreateNone s a b p t hf]
      dsimp only
      have h2 : ({ s with chats := s.chats ++ [SB.newChatRow s (SB.sortPair a b) p t], nextId := s.nextId + 1 } : SB.St).chats.filter (SB.chatPred (SB.sortPair b a) p) = [SB.newChatRow s (SB.sortPair a b) p t] := by
        dsimp only
        rw [hsp, List.filter_append, hf, List.nil_append,
          List.filter_cons_of_pos (by exact hnew), List.filter_nil]
      rw [sbCreateOne _ b a p t' _ h2]
      exact ⟨rfl, rfl⟩
    | cons c rest =>
      cases rest with
      | nil =>
        rw [sbCreateOne s a b p t c hf]
        dsimp only
        have h2 : s.chats.filter (SB.chatPred (SB.sortPair b a) p) = [c] := by
          rw [hsp]
          exact hf
        rw [sbCreateOne s b a p t' c h2]
        exact ⟨rfl, rfl⟩
      | cons c2 rest2 =>
        exfalso
        rw [hf] at hone
        simp at hone
  · intro s2 a2 b2 p2 t2 h2
    cases hf2 : s2.chats.filter (SB.chatPred (SB.sortPair a2 b2) p2) with
    | nil =>
      rw [hf2] at h2
      simp at h2
    | cons c rest =>
      cases rest with
      | nil =>
        rw [hf2] at h2
        simp at h2
      | cons c2 rest2 =>
        rw [sbCreateMany s2 a2 b2 p2 t2 c c2 rest2 hf2]
        simp

/-- C2 amended, witness: a concrete either-order pair of calls on the empty
store returns the same conversation id. -/
theorem C2_amended_witness :
    (emptyStSB.chats.filter (SB.chatPred (SB.sortPair "a@x.com" "b@x.com") "p1")).length ≤ 1 ∧
    (SB.getOrCreateChat (SB.getOrCreateChat emptyStSB "a@x.com" "b@x.com" "p1" "Lamp").2
        "b@x.com" "a@x.com" "p1" "Desk").1 =
      (SB.getOrCreateChat emptyStSB "a@x.com" "b@x.com" "p1" "Lamp").1 :=
  ⟨by decide,
    ((C2_amended emptyStSB "a@x.com" "b@x.com" "p1" "Lamp" "Desk" (by decide)).1).1⟩

/-- C3 amended: the Firestore variant does fail before any write when the
two resolved (normalized) identities are equal — it throws
"Cannot start chat with yourself" and returns the store unchanged; the
Supabase variant has no such check (`C3_counterexample`). -/
theorem C3_amended (s : FS.St) (a na b nb p pt pi : String)
    (h : (FS.normalizeUserId s.dir a).1 = (FS.normalizeUserId s.dir b).1) :
    FS.getOrCreateChat s a na b nb p pt pi =
      (Except.error "Cannot start chat with yourself", s) := by
  unfold FS.getOrCreateChat
  simp [h]

/-- C3 amended, witness: a concrete self chat attempt on the empty store is
rejected with the store unchanged. -/
theorem C3_amended_witness :
    (FS.normalizeUserId emptyStFS.dir "a@x.com").1 =
      (FS.normalizeUserId emptyStFS.dir "a@x.com").1 ∧
    FS.getOrCreateChat emptyStFS "a@x.com" "A" "a@x.com" "A" "p1" "Lamp" "" =
      (Except.error "Cannot start chat with yourself", emptyStFS) :=
  ⟨rfl, C3_amended emptyStFS "a@x.com" "A" "a@x.com" "A" "p1" "Lamp" "" rfl⟩

theorem normalizeEmail (d : FS.Directory) (A : String) (hA : Util.containsChar A '@' = true) :
    (FS.normalizeUserId d A).1 = A := by
  simp [FS.normalizeUserId, hA]

theorem getOrCreateReuse (s : FS.St) (A na B nb p pt pi : String) (c : FS.Chat)
    (hA : Util.containsChar A '@' = true) (hB : Util.containsChar B '@' = true)
    (hne : A ≠ B) (h : (FS.pairChats s A B).head? = some c) :
    FS.getOrCreateChat s A na B nb p pt pi = (Except.ok c.id, s) := by
  have hf : List.find? (FS.pairPred A B) s.chats = some c := by
    rw [findEqFilterHead]
    exact h
  unfold FS.getOrCreateChat FS.scanPair
  simp [FS.normalizeUserId, hA, hB, hne, hf]

theorem getOrCreateFresh (s : FS.St) (A na B nb p pt pi : String)
    (hA : Util.containsChar A '@' = true) (hB : Util.containsChar B '@' = true)
    (hne : A ≠ B) (h : FS.pairChats s A B = []) :
    ∃ c : FS.Chat,
      FS.getOrCreateChat s A na B nb p pt pi =
        (Except.ok c.id, { s with chats := s.chats ++ [c], nextId := s.nextId + 1 }) ∧
      c.participants = [A, B] := by
  have hf : List.find? (FS.pairPred A B) s.chats = none := by
    rw [findEqFilterHead]
    unfold FS.pairChats at h
    rw [h]
    rfl
  unfold FS.getOrCreateChat FS.scanPair FS.createChat
  simp only [FS.normalizeUserId, hA, hB, if_true, ite_true, hf]
  rw [if_neg hne]
  exact ⟨FS.newChatRec s A
      (Util.jsOr ((Option.map (fun x => FS.UserRec.name x) (FS.getUserByEmail s.dir A)).getD "")
        (Util.jsOr ((Option.map (fun x => FS.UserRec.name x) (FS.getUserByEmail s.dir A)).getD "")
          (FS.localPart A)))
      B
      (Util.jsOr ((Option.map (fun x => FS.UserRec.name x) (FS.getUserByEmail s.dir B)).getD "")
        (Util.jsOr ((Option.map (fun x => FS.UserRec.name x) (FS.getUserByEmail s.dir B)).getD "")
          (FS.localPart B)))
      p pt pi, rfl, rfl⟩

theorem runCallsStable (s : FS.St) (A B : String) (c : FS.Chat) (calls : List FS.CallArgs)
    (hA : Util.containsChar A '@' = true) (hB : Util.containsChar B '@' = true)
    (hne : A ≠ B) (h : (FS.pairChats s A B).head? = some c) :
    FS.runCalls s A B calls = (calls.map (fun _ => Except.ok c.id), s) := by
  induction calls with
  | nil => simp [FS.runCalls]
  | cons x rest ih =>
    unfold FS.runCalls
    rw [getOrCreateReuse s A x.curName B x.othName x.pid x.ptitle x.pimg c hA hB hne h]
    simp [ih]

/-- C1 amended: in the later Firestore variant the reuse scan ignores the
product fields, so the pair-scoping invariant does hold there sequentially:
starting from a store with no conversation for the (distinct, canonical)
pair, any sequence of `getOrCreateChat` calls — whatever names and
product/topic arguments each call passes — leaves at most one conversation
for the pair in the store, and all calls return the same conversation id.
The Supabase variant is topic-scoped instead (`C1_counterexample`). -/
theorem C1_amended (A B : String) (hA : Util.containsChar A '@' = true)
    (hB : Util.containsChar B '@' = true) (hne : A ≠ B) (s : FS.St)
    (h0 : FS.pairChats s A B = []) (calls : List FS.CallArgs) :
    (FS.pairChats (FS.runCalls s A B calls).2 A B).length ≤ 1 ∧
    ∀ r ∈ (FS.runCalls s A B calls).1, ∀ q ∈ (FS.runCalls s A B calls).1, r = q := by
  cases calls with
  | nil =>
    constructor
    · simp [FS.runCalls, h0]
    · intro r hr q hq
      simp [FS.runCalls] at hr
  | cons x rest =>
    obtain ⟨c, hc, hparts⟩ :=
      getOrCreateFresh s A x.curName B x.othName x.pid x.ptitle x.pimg hA hB hne h0
    have hcpred : FS.pairPred A B c = true := by
      have h1 : ([A, B] : List String).contains A = true := memContains _ _ (by simp)
      have h2 : ([A, B] : List String).contains B = true := memContains _ _ (by simp)
      unfold FS.pairPred
      rw [hparts, h1, h2]
      rfl
    have hpair :
        FS.pairChats { s with chats := s.chats ++ [c], nextId := s.nextId + 1 } A B = [c] := by
      unfold FS.pairChats at h0 ⊢
      simp only [List.filter_append, h0, List.nil_append]
      simp [List.filter_cons, hcpred]
    unfold FS.runCalls
    rw [hc]
    dsimp only
    rw [runCallsStable _ A B c rest hA hB hne (by rw [hpair]; rfl)]
    constructor
    · simp [hpair]
    · intro r hr q hq
      have hr' : r = Except.ok c.id := by
        rcases List.mem_cons.mp hr with h | h
        · exact h
        · rcases List.mem_map.mp h with ⟨_, _, hh⟩
          exact hh.symm
      have hq' : q = Except.ok c.id := by
        rcases List.mem_cons.mp hq with h | h
        · exact h
        · rcases List.mem_map.mp h with ⟨_, _, hh⟩
          exact hh.symm
      rw [hr', hq']

/-- C1 amended, witness: two concrete calls with different products on the
empty Firestore store leave a single conversation for the pair. -/
theorem C1_amended_witness :
    Util.containsChar "a@x.com" '@' = true ∧ "a@x.com" ≠ "b@x.com" ∧
    FS.pairChats emptyStFS "a@x.com" "b@x.com" = [] ∧
    (FS.pairChats (FS.runCalls emptyStFS "a@x.com" "b@x.com"
        [⟨"A", "B", "p1", "Lamp", ""⟩, ⟨"A", "B", "p2", "Desk", ""⟩]).2
      "a@x.com" "b@x.com").length ≤ 1 :=
  ⟨by decide, by decide, by decide,
    (C1_amended "a@x.com" "b@x.com" (by decide) (by decide) (by decide) emptyStFS (by decide)
      [⟨"A", "B", "p1", "Lamp", ""⟩, ⟨"A", "B", "p2", "Desk", ""⟩]).1⟩

/-- C4 amended: for an existing two-participant conversation, a canonical
sender `x` who is either of its participants (listed first or second, so
both directions of the exchange are covered), and distinct sanitized map
keys, the Firestore `sendMessage` ends in a state with the three effects
applied — the message is appended (with the boolean `read` flag `false`
rather than a read-set containing the sender), the conversation summary
carries the text and send time, and the other participant's unread counter
is incremented by exactly one while the sender's entry is untouched — but
it reaches that state through two separate writes, so it is not one
observable logical unit (`C4_counterexample`). -/
theorem C4_amended (s : FS.St) (cid : Nat) (c : FS.Chat) (x y sn t : String)
    (hfind : s.chats.find? (fun ch => ch.id == cid) = some c)
    (hparts : c.participants = [x, y] ∨ c.participants = [y, x])
    (hx : Util.containsChar x '@' = true)
    (hkeys : FS.safeId x ≠ FS.safeId y) :
    (∃ m : FS.Msg, (FS.sendMessage s cid x sn t).messages = s.messages ++ [m] ∧
       m.chatId = cid ∧ m.senderId = x ∧ m.text = t ∧ m.timestamp = s.now ∧ m.read = false) ∧
    (∃ c' : FS.Chat,
       (FS.sendMessage s cid x sn t).chats.find? (fun ch => ch.id == cid) = some c' ∧
       c'.lastMessage = t ∧ c'.lastMessageTime = s.now ∧
       Util.alGet c'.unreadCount (FS.safeId y) =
         some ((Util.alGet c.unreadCount (FS.safeId y)).getD 0 + 1) ∧
       Util.alGet c'.unreadCount (FS.safeId x) = Util.alGet c.unreadCount (FS.safeId x)) := by
  have hn : (FS.normalizeUserId s.dir x).1 = x := normalizeEmail _ _ hx
  have hxy : x ≠ y := fun he => hkeys (by rw [he])
  have hyx : (y == x) = false := beq_eq_false_iff_ne.mpr (Ne.symm hxy)
  have hkey2 : (FS.safeId y == FS.safeId x) = false := beq_eq_false_iff_ne.mpr (Ne.symm hkeys)
  have hpc := List.find?_some hfind
  rcases hparts with hparts | hparts
  · unfold FS.sendMessage FS.sendMessageInsert
    dsimp only
    rw [hfind]
    dsimp only
    rw [hparts]
    simp only [hn, List.foldl, beq_self_eq_true, if_true, hyx, if_false, List.nil_append]
    constructor
    · exact ⟨_, rfl, rfl, rfl, rfl, rfl, rfl⟩
    · refine ⟨_, listUpdateFind s.chats _ _ c hfind ?_, rfl, rfl, ?_, ?_⟩
      · exact hpc
      · exact alGetAlSetSelf _ _ _
      · exact alGetAlSetOther _ _ _ _ hkey2
  · unfold FS.sendMessage FS.sendMessageInsert
    dsimp only
    rw [hfind]
    dsimp only
    rw [hparts]
    simp only [hn, List.foldl, beq_self_eq_true, if_true, hyx, if_false, List.nil_append]
    constructor
    · exact ⟨_, rfl, rfl, rfl, rfl, rfl, rfl⟩
    · refine ⟨_, listUpdateFind s.chats _ _ c hfind ?_, rfl, rfl, ?_, ?_⟩
      · exact hpc
      · exact alGetAlSetSelf _ _ _
      · exact alGetAlSetOther _ _ _ _ hkey2

/-- C4 amended, witness: the reply direction — `b@x.com`, the second-listed
participant of the demo conversation, sends "yo", which bumps `a@x.com`'s
counter to 1, leaves the sender's entry at 0, and updates the summary. -/
theorem C4_amended_witness :
    demoStFS.chats.find? (fun ch => ch.id == 0) = some demoChatFS ∧
    (demoChatFS.participants = ["b@x.com", "a@x.com"] ∨
      demoChatFS.participants = ["a@x.com", "b@x.com"]) ∧
    (∃ c' : FS.Chat,
       (FS.sendMessage demoStFS 0 "b@x.com" "B" "yo").chats.find? (fun ch => ch.id == 0) =
         some c' ∧
       c'.lastMessage = "yo" ∧ c'.lastMessageTime = demoStFS.now ∧
       Util.alGet c'.unreadCount (FS.safeId "a@x.com") =
         some ((Util.alGet demoChatFS.unreadCount (FS.safeId "a@x.com")).getD 0 + 1) ∧
       Util.alGet c'.unreadCount (FS.safeId "b@x.com") =
         Util.alGet demoChatFS.unreadCount (FS.safeId "b@x.com")) :=
  ⟨by decide, Or.inr (by decide),
    (C4_amended demoStFS 0 demoChatFS "b@x.com" "a@x.com" "B" "yo"
      (by decide) (Or.inr (by decide)) (by decide) (by decide)).2⟩

/-- C5 amended: no ConversationNotFound or EmptyMessage error exists in the
code.  On an unknown conversation id the Firestore `sendMessage` still
appends the message and returns normally with the chats unchanged, the
Supabase variant returns with the whole store unchanged (also without
surfacing an error), and blank text is only ever filtered by the sending UI
(`clientSend`), which drops input that trims to the empty string before any
service call. -/
theorem C5_amended (s : FS.St) (cid : Nat) (sid sn t : String)
    (h : s.chats.find? (fun ch => ch.id == cid) = none) :
    ((FS.sendMessage s cid sid sn t).chats = s.chats ∧
     ∃ m : FS.Msg, (FS.sendMessage s cid sid sn t).messages = s.messages ++ [m] ∧
       m.chatId = cid ∧ m.text = t) ∧
    (∀ s2 : SB.St, s2.chats.find? (fun ch => ch.id == cid) = none →
       SB.sendMessage s2 cid sid t = s2) ∧
    (∀ (s3 : SB.St) (cid2 : Nat) (uid input : String), Util.trimStr input = "" →
       SB.clientSend s3 cid2 uid input = s3) := by
  refine ⟨?_, ?_, ?_⟩
  · unfold FS.sendMessage FS.sendMessageInsert
    dsimp only
    rw [h]
    exact ⟨rfl, _, rfl, rfl, rfl⟩
  · intro s2 h2
    unfold SB.sendMessage
    rw [h2]
  · intro s3 cid2 uid input hin
    unfold SB.clientSend
    rw [if_pos hin]

/-- C5 amended, witness: the concrete unknown-id send of
`C5_counterexample`, via the amended theorem. -/
theorem C5_amended_witness :
    demoStFS.chats.find? (fun ch => ch.id == 99) = none ∧
    (FS.sendMessage demoStFS 99 "a@x.com" "A" "hi").chats = demoStFS.chats :=
  ⟨by decide, ((C5_amended demoStFS 99 "a@x.com" "A" "hi" (by decide)).1).1⟩

/-- C8 amended: the typing indicator of the other participant reverts to
false only through the explicit `setTyping(..., false)` broadcast that the
typing client itself schedules 1500 ms (within a 1-2 s window) after the
keystroke; nothing on the receiving side expires the state, so a crashed
client leaves it stale (`C8_counterexample`). -/
theorem C8_amended (a b val : String) (t : Nat) (h : a ≠ b) :
    TY.observedAt b (TY.handleTypingEmits a val t) (t + 1500) = false ∧
    TY.observedAt b (TY.handleTypingEmits a val t) t = decide (0 < val.length) ∧
    1000 ≤ 1500 ∧ 1500 ≤ 2000 := by
  have hab : (a == b) = false := beq_eq_false_iff_ne.mpr h
  refine ⟨?_, ?_, by omega, by omega⟩
  · have e1 : t ≤ t + 1500 := Nat.le_add_right t 1500
    simp [TY.observedAt, TY.handleTypingEmits, hab, e1]
    intro h1 h2
    exact absurd h1 h2
  · have e2 : ¬ (t + 1500 ≤ t) := by omega
    simp [TY.observedAt, TY.handleTypingEmits, hab, e2]
    intro _
    exact h

/-- C8 amended, witness: the surviving-client trace at concrete inputs. -/
theorem C8_amended_witness :
    "a@x.com" ≠ "b@x.com" ∧
    TY.observedAt "b@x.com" (TY.handleTypingEmits "a@x.com" "h" 0) (0 + 1500) = false :=
  ⟨by decide, (C8_amended "a@x.com" "b@x.com" "h" 0 (by decide)).1⟩

/-- C9: both conversation-list subscriptions deliver exactly the
conversations that include the identity as a participant, sorted by
last-message time in descending order, and a delivery is produced from the
current store for every state the store passes through (the Supabase
listener re-fetches on every change of the chats table). -/
theorem C9_subscription :
    (∀ (s : SB.St) (uid : String) (c : SB.Chat),
       c ∈ SB.fetchChats s uid ↔ c ∈ s.chats ∧ c.users.contains uid = true) ∧
    (∀ (s : SB.St) (uid : String),
       List.Sorted (Util.keyDesc SB.Chat.lastMessageAt) (SB.fetchChats s uid)) ∧
    (∀ (s : FS.St) (uid : String) (c : FS.Chat),
       c ∈ FS.chatsQuery s uid ↔ c ∈ s.chats ∧ c.participants.contains uid = true) ∧
    (∀ (s : FS.St) (uid : String),
       List.Sorted (Util.keyDesc FS.Chat.lastMessageTime) (FS.chatsQuery s uid)) ∧
    (∀ (states : List SB.St) (st : SB.St) (uid : String),
       SB.deliveries (states ++ [st]) uid =
         SB.deliveries states uid ++ [SB.fetchChats st uid]) := by
  refine ⟨?_, ?_, ?_, ?_, ?_⟩
  · intro s uid c
    have hp := (List.perm_insertionSort (Util.keyDesc SB.Chat.lastMessageAt)
      (s.chats.filter (fun ch => ch.users.contains uid))).mem_iff (a := c)
    unfold SB.fetchChats Util.sortByKeyDesc
    rw [hp, List.mem_filter]
  · intro s uid
    exact List.sorted_insertionSort _ _
  · intro s uid c
    have hp := (List.perm_insertionSort (Util.keyDesc FS.Chat.lastMessageTime)
      (s.chats.filter (fun ch => ch.participants.contains uid))).mem_iff (a := c)
    unfold FS.chatsQuery Util.sortByKeyDesc
    rw [hp, List.mem_filter]
  · intro s uid
    exact List.sorted_insertionSort _ _
  · intro states st uid
    unfold SB.deliveries
    simp

theorem readMarkFields (cid : Nat) (nu : String) (m : FS.Msg) :
    (FS.readMark cid nu m).chatId = m.chatId ∧ (FS.readMark cid nu m).senderId = m.senderId ∧
    (FS.readMark cid nu m).text = m.text := by
  unfold FS.readMark
  split <;> exact ⟨rfl, rfl, rfl⟩

theorem readMarkMono (cid : Nat) (nu : String) (m : FS.Msg) (h : m.read = true) :
    (FS.readMark cid nu m).read = true := by
  unfold FS.readMark
  split <;> simp [h]

theorem readMarkMarks (cid : Nat) (nu : String) (m : FS.Msg) (hc : m.chatId = cid)
    (hs : (m.senderId == nu) = false) : (FS.readMark cid nu m).read = true := by
  unfold FS.readMark
  cases hr : m.read <;> simp [hc, hs, hr]

theorem readMarkSkips (cid : Nat) (nu : String) (m : FS.Msg)
    (h : (m.chatId == cid) = false ∨ (m.senderId == nu) = true) :
    FS.readMark cid nu m = m := by
  unfold FS.readMark
  rcases h with h | h <;> simp [h]

theorem readMarkIdem (cid : Nat) (nu : String) (m : FS.Msg) :
    FS.readMark cid nu (FS.readMark cid nu m) = FS.readMark cid nu m := by
  unfold FS.readMark
  cases hcond : (m.chatId == cid && !(m.senderId == nu) && !m.read) <;> simp [hcond]

theorem markMessagesChar (s : FS.St) (cid : Nat) (B : String) (c : FS.Chat)
    (hfind : s.chats.find? (fun ch => ch.id == cid) = some c) :
    FS.markMessagesAsRead s cid B =
      (let nu := (FS.normalizeUserId s.dir B).1
       let cNew : FS.Chat := { c with unreadCount := Util.alSet c.unreadCount (FS.safeId nu) 0 }
       { s with chats := Util.listUpdate (fun ch => ch.id == cid) (fun _ => cNew) s.chats,
                messages := s.messages.map (FS.readMark cid nu) }) := by
  unfold FS.markMessagesAsRead
  dsimp only
  rw [hfind]

/-- C6: `markMessagesAsRead` of the Firestore variant resets the reader's
unread counter to zero and marks every message of the conversation sent by
someone else as read (the boolean `read` flag being this variant's
read-set), changes nothing else about a message, is monotone (a read flag
never reverts) and idempotent (the second call is a no-op); the per-message
`markAsRead` of the Supabase variant is likewise idempotent and only ever
grows the `read_by` set, adding the reader exactly when absent. -/
theorem C6_markRead_correct (s : FS.St) (cid : Nat) (B : String) (c : FS.Chat)
    (hfind : s.chats.find? (fun ch => ch.id == cid) = some c) :
    (∃ c' : FS.Chat,
       (FS.markMessagesAsRead s cid B).chats.find? (fun ch => ch.id == cid) = some c' ∧
       Util.alGet c'.unreadCount (FS.safeId (FS.normalizeUserId s.dir B).1) = some 0) ∧
    (∀ (i : Nat) (m : FS.Msg), s.messages[i]? = some m →
       ∃ m' : FS.Msg, (FS.markMessagesAsRead s cid B).messages[i]? = some m' ∧
         m'.chatId = m.chatId ∧ m'.senderId = m.senderId ∧ m'.text = m.text ∧
         (m.read = true → m'.read = true) ∧
         (m.chatId = cid → (m.senderId == (FS.normalizeUserId s.dir B).1) = false →
           m'.read = true) ∧
         ((m.chatId == cid) = false ∨ (m.senderId == (FS.normalizeUserId s.dir B).1) = true →
           m' = m)) ∧
    FS.markMessagesAsRead (FS.markMessagesAsRead s cid B) cid B =
      FS.markMessagesAsRead s cid B ∧
    (∀ (s2 : SB.St) (mid : Nat) (uid : String),
       SB.markAsRead (SB.markAsRead s2 mid uid) mid uid = SB.markAsRead s2 mid uid) ∧
    (∀ (s2 : SB.St) (mid : Nat) (uid : String) (m2 : SB.Msg),
       s2.messages.find? (fun mm => mm.id == mid) = some m2 →
       ∃ m2' : SB.Msg,
         (SB.markAsRead s2 mid uid).messages.find? (fun mm => mm.id == mid) = some m2' ∧
         uid ∈ m2'.readBy ∧ ∀ u ∈ m2.readBy, u ∈ m2'.readBy) := by
  have hpc := List.find?_some hfind
  have hchar := markMessagesChar s cid B c hfind
  refine ⟨?_, ?_, ?_, ?_, ?_⟩
  · rw [hchar]
    dsimp only
    refine ⟨_, listUpdateFind s.chats _ _ c hfind hpc, ?_⟩
    exact alGetAlSetSelf _ _ _
  · intro i m hm
    rw [hchar]
    dsimp only
    rw [List.getElem?_map, hm]
    exact ⟨_, rfl, (readMarkFields _ _ _).1, (readMarkFields _ _ _).2.1,
      (readMarkFields _ _ _).2.2, fun h => readMarkMono _ _ _ h,
      fun hc hs => readMarkMarks _ _ _ hc hs, fun h => readMarkSkips _ _ _ h⟩
  · have hf2 : (FS.markMessagesAsRead s cid B).chats.find? (fun ch => ch.id == cid) =
        some { c with unreadCount := Util.alSet c.unreadCount (FS.safeId (FS.normalizeUserId s.dir B).1) 0 } := by
      rw [hchar]
      dsimp only
      exact listUpdateFind s.chats _ _ c hfind hpc
    have hchar2 := markMessagesChar (FS.markMessagesAsRead s cid B) cid B _ hf2
    rw [hchar2, hchar]
    dsimp only
    apply stEqFS
    · dsimp only
      have hcc : ({ c with unreadCount := Util.alSet (Util.alSet c.unreadCount (FS.safeId (FS.normalizeUserId s.dir B).1) 0) (FS.safeId (FS.normalizeUserId s.dir B).1) 0 } : FS.Chat) = { c with unreadCount := Util.alSet c.unreadCount (FS.safeId (FS.normalizeUserId s.dir B).1) 0 } := by
        rw [alSetAlSetSelf]
      rw [hcc]
      apply listMapId
      intro z hz
      rcases List.mem_map.mp hz with ⟨ch, hch, rfl⟩
      by_cases hp : (ch.id == cid) = true
      · simp [hp]
      · simp [hp]
    · dsimp only
      rw [List.map_map]
      exact listMapCongr _ _ _ (fun x _ => readMarkIdem _ _ x)
    · rfl
    · rfl
    · rfl
  · intro s2 mid uid
    cases hm : s2.messages.find? (fun mm => mm.id == mid) with
    | none =>
      have h1 : SB.markAsRead s2 mid uid = s2 := by
        unfold SB.markAsRead
        rw [hm]
      rw [h1]
      exact h1
    | some m =>
      cases hc : m.readBy.contains uid with
      | true =>
        have h1 : SB.markAsRead s2 mid uid = s2 := by
          unfold SB.markAsRead
          rw [hm]
          exact if_pos hc
        rw [h1]
        exact h1
      | false =>
        have h1 : SB.markAsRead s2 mid uid =
            { s2 with messages := Util.listUpdate (fun mm => mm.id == mid) (fun mm => { mm with readBy := mm.readBy ++ [uid] }) s2.messages } := by
          unfold SB.markAsRead
          rw [hm]
          exact if_neg (fun hx => by rw [hc] at hx; cases hx)
        have hpm := List.find?_some hm
        have hf2 : ({ s2 with messages := Util.listUpdate (fun mm => mm.id == mid) (fun mm => { mm with readBy := mm.readBy ++ [uid] }) s2.messages } : SB.St).messages.find? (fun mm => mm.id == mid) = some { m with readBy := m.readBy ++ [uid] } := by
          dsimp only
          exact listUpdateFind _ _ _ _ hm hpm
        have hc2 : ({ m with readBy := m.readBy ++ [uid] } : SB.Msg).readBy.contains uid =
            true := memContains _ _ (by simp)
        rw [h1]
        unfold SB.markAsRead
        rw [hf2]
        exact if_pos hc2
  · intro s2 mid uid m2 hm
    cases hc : m2.readBy.contains uid with
    | true =>
      have h1 : SB.markAsRead s2 mid uid = s2 := by
        unfold SB.markAsRead
        rw [hm]
        exact if_pos hc
      rw [h1]
      exact ⟨m2, hm, by simpa using hc, fun u hu => hu⟩
    | false =>
      have h1 : SB.markAsRead s2 mid uid =
          { s2 with messages := Util.listUpdate (fun mm => mm.id == mid) (fun mm => { mm with readBy := mm.readBy ++ [uid] }) s2.messages } := by
        unfold SB.markAsRead
        rw [hm]
        exact if_neg (fun hx => by rw [hc] at hx; cases hx)
      rw [h1]
      have hpm2 := List.find?_some hm
      refine ⟨{ m2 with readBy := m2.readBy ++ [uid] }, ?_, by simp, fun u hu => by simp [hu]⟩
      dsimp only
      exact listUpdateFind _ _ _ _ hm hpm2

/-- C6, witness: marking the demo conversation read for `a@x.com` leaves the
counter entry at zero. -/
theorem C6_markRead_witness :
    demoStFS2.chats.find? (fun ch => ch.id == 0) = some demoChatFS ∧
    (∃ c' : FS.Chat,
       (FS.markMessagesAsRead demoStFS2 0 "a@x.com").chats.find? (fun ch => ch.id == 0) =
         some c' ∧
       Util.alGet c'.unreadCount
         (FS.safeId (FS.normalizeUserId demoStFS2.dir "a@x.com").1) = some 0) :=
  ⟨by decide, (C6_markRead_correct demoStFS2 0 "a@x.com" demoChatFS (by decide)).1⟩

/-- C7: identity resolution follows the fixed ordered chain.  A handle with
email syntax is kept as canonical id with the display name falling back to
the local part when the directory lookup yields nothing, so such a handle
never hard-fails (`normalizeUserId`); the seller chain of
`handleChatWithSeller` accepts an email-syntax handle outright, otherwise
queries the directory by the secondary username key, otherwise runs
domain-guessing over the fixed three-domain list, and fails ("cannot find
this user") exactly when every step yields no directory match. -/
theorem C7_resolution_chain :
    (∀ (d : FS.Directory) (userId : String), Util.containsChar userId '@' = true →
       (FS.normalizeUserId d userId).1 = userId) ∧
    (∀ (d : FS.Directory) (userId : String), Util.containsChar userId '@' = true →
       FS.getUserByEmail d userId = none →
       (FS.normalizeUserId d userId).2 = FS.localPart userId) ∧
    (∀ (d : FS.Directory) (h : String), Util.containsChar h '@' = true →
       PD.resolveSeller d h = some h) ∧
    (∀ (d : FS.Directory) (h : String) (u : FS.UserRec), h ≠ "" →
       Util.containsChar h '@' = false → FS.getUserByUsername d h = some u →
       PD.resolveSeller d h = some u.email) ∧
    (∀ (d : FS.Directory) (h : String), h ≠ "" →
       Util.containsChar h '@' = false → FS.getUserByUsername d h = none →
       PD.resolveSeller d h = PD.domainGuess d h) ∧
    (∀ (d : FS.Directory) (h : String), h ≠ "" →
       (PD.resolveSeller d h = none ↔
         Util.containsChar h '@' = false ∧ FS.getUserByUsername d h = none ∧
         ∀ dom ∈ PD.possibleDomains,
           FS.getUserByEmail d (Util.toLowerStr h ++ dom) = none)) := by
  refine ⟨?_, ?_, ?_, ?_, ?_, ?_⟩
  · intro d userId hAt
    simp [FS.normalizeUserId, hAt]
  · intro d userId hAt hnone
    simp [FS.normalizeUserId, hAt, hnone, Util.jsOr]
  · intro d h hAt
    have hne : h ≠ "" := by
      intro he
      subst he
      simp [Util.containsChar] at hAt
    unfold PD.resolveSeller
    rw [if_neg hne, if_pos hAt]
  · intro d h u hne hAt husr
    unfold PD.resolveSeller
    rw [if_neg hne, if_neg (fun hx => by rw [hAt] at hx; cases hx), husr]
  · intro d h hne hAt husr
    unfold PD.resolveSeller
    rw [if_neg hne, if_neg (fun hx => by rw [hAt] at hx; cases hx), husr]
  · intro d h hne
    unfold PD.resolveSeller
    rw [if_neg hne]
    cases hAt : Util.containsChar h '@' with
    | true => simp
    | false =>
      rw [if_neg Bool.false_ne_true]
      cases husr : FS.getUserByUsername d h with
      | some u =>
        constructor
        · intro hx
          exact absurd hx (by simp)
        · rintro ⟨_, hn, _⟩
          cases hn
      | none =>
        unfold PD.domainGuess
        simp only [List.findSome?_eq_none_iff, Option.map_eq_none']
        constructor
        · intro hx
          exact ⟨trivial, trivial, hx⟩
        · rintro ⟨_, _, hx⟩
          exact hx

/-- C7, witness: concrete resolutions against the demo directory — an
email-syntax handle is kept as canonical id, and the seller handle
`seller_bob` resolves through the secondary-key lookup. -/
theorem C7_resolution_witness :
    (Util.containsChar "x@y.com" '@' = true ∧
      (FS.normalizeUserId demoDir "x@y.com").1 = "x@y.com") ∧
    ("seller_bob" ≠ "" ∧ Util.containsChar "seller_bob" '@' = false ∧
      FS.getUserByUsername demoDir "seller_bob" =
        some { email := "bob@gmail.com", username := "seller_bob", name := "Bob" } ∧
      PD.resolveSeller demoDir "seller_bob" = some "bob@gmail.com") :=
  ⟨⟨by decide, C7_resolution_chain.1 demoDir "x@y.com" (by decide)⟩,
   ⟨by decide, by decide, by decide,
     C7_resolution_chain.2.2.2.1 demoDir "seller_bob"
       { email := "bob@gmail.com", username := "seller_bob", name := "Bob" }
       (by decide) (by decide) (by decide)⟩⟩
